import Mathlib

/-!
Verification development for the terminal chat application
(src/chat.py, src/chat_with_media.py, src/chat_with_media_v2.py).

The Python sources are shallowly embedded below.  Strings are modelled as
Lean strings (lists of characters); the regex scan over double-brace
markers is modelled by an explicit left-to-right lazy scanner; filesystem
and network effects are modelled by explicit parameters (an encoder
oracle for local image files, an Except value for the completion call)
and by an explicit persisted-document component in the state.
-/

namespace SimpleChat

/-- Python str.strip default whitespace characters (ASCII subset). -/
def pyIsSpace (c : Char) : Bool :=
  c == ' ' || c == '\t' || c == '\n' || c == '\r' || c == '\x0b' || c == '\x0c'

/-- Model of Python str.strip on a character list. -/
def stripList (l : List Char) : List Char :=
  ((l.dropWhile pyIsSpace).reverse.dropWhile pyIsSpace).reverse

/-- Model of Python str.strip on a string. -/
def pyStrip (s : String) : String :=
  String.mk (stripList s.toList)

/-- Prefix test on character lists (first argument: the list, second: the pattern). -/
def listStartsWith : List Char → List Char → Bool
  | _, [] => true
  | [], _ :: _ => false
  | c :: cs, p :: ps => c == p && listStartsWith cs ps

/-- Substring test on character lists (pattern first, then the scanned list). -/
def listContainsSub (pat : List Char) : List Char → Bool
  | [] => listStartsWith [] pat
  | c :: cs => listStartsWith (c :: cs) pat || listContainsSub pat cs

/-- Model of the classification test used by chat_with_media_v2.py line 73:
ref.startswith on the pair of schemes http:// and https:// . -/
def isHttpUrl (s : String) : Bool :=
  listStartsWith s.toList ("http://".toList) || listStartsWith s.toList ("https://".toList)

/--
Finds the first closing double brace in the list, mirroring the lazy part
of the Python pattern: the inner characters may not include a newline
(the regex dot does not match newline) and the match closes at the first
occurrence of two closing braces.  Returns the inner characters and the
remainder after the closing pair.
-/
def splitAtClose : List Char → Option (List Char × List Char)
  | c1 :: c2 :: rest =>
      if c1 = '\x7d' ∧ c2 = '\x7d' then some ([], rest)
      else if c1 = '\n' then none
      else
        match splitAtClose (c2 :: rest) with
        | some (inner, r) => some (c1 :: inner, r)
        | none => none
  | _ => none

/--
Fuel-indexed scanner for the Python regex scan over double-brace markers
(pattern used at chat_with_media_v2.py line 64 and chat_with_media.py
line 51, and the matching substitution at lines 96 and 60): leftmost
matches, lazy inner part, one-character advance on failure.  Returns the
captured inner strings (re.findall with one group) and the text with all
matches removed (re.sub with the empty replacement).  The fuel argument
makes the recursion structural; it is irrelevant as long as it bounds
the length of the list (scanAux_fuel below).
-/
def scanAux : Nat → List Char → List (List Char) × List Char
  | _, [] => ([], [])
  | _, [c] => ([], [c])
  | 0, l => ([], l)
  | n + 1, c1 :: c2 :: rest =>
      if c1 = '\x7b' ∧ c2 = '\x7b' then
        match splitAtClose rest with
        | some (inner, rest2) =>
            (inner :: (scanAux n rest2).1, (scanAux n rest2).2)
        | none =>
            ((scanAux n (c2 :: rest)).1, c1 :: (scanAux n (c2 :: rest)).2)
      else
        ((scanAux n (c2 :: rest)).1, c1 :: (scanAux n (c2 :: rest)).2)

/-- The marker scan at exactly enough fuel: the model of one pass of
re.findall (first component) together with re.sub (second component). -/
def scanMarkers (l : List Char) : List (List Char) × List Char :=
  scanAux l.length l

/-- re.findall with the double-brace group, as a list of strings. -/
def findRefs (s : String) : List String :=
  ((scanMarkers s.toList).1).map String.mk

/-- re.sub removing every double-brace match, as a string. -/
def subMarkers (s : String) : String :=
  String.mk (scanMarkers s.toList).2

/-! ## Data model

One turn of the conversation: the role tag and the content, which is
either a plain string or an ordered list of typed parts, exactly the
dictionary shapes built by the Python code (a text part carries a
string, an image part carries a url string — remote url or data uri). -/

inductive Role where
  | user
  | assistant
deriving DecidableEq

inductive ContentPart where
  | text (s : String)
  | imageUrl (url : String)
deriving DecidableEq

inductive MessageContent where
  | plainText (s : String)
  | structured (parts : List ContentPart)
deriving DecidableEq

structure Message where
  role : Role
  content : MessageContent
deriving DecidableEq

/-- The text parts of a content value (used to state the marker claims). -/
def textOf : ContentPart → Option String
  | ContentPart.text s => some s
  | ContentPart.imageUrl _ => none

def textPartsOf : MessageContent → List String
  | MessageContent.plainText s => [s]
  | MessageContent.structured parts => parts.filterMap textOf

/-! ## Persisted document model

The persisted chat_history.json document, modelled at the level of the
parsed JSON value the Python code reads and writes (json.dump and
json.load of a list of message dictionaries; the string-level JSON
grammar belongs to the json library, outside this repository).  A
missing file is modelled as none. -/

inductive Json where
  | str (s : String)
  | arr (items : List Json)
  | obj (fields : List (String × Json))

def roleString : Role → String
  | Role.user => "user"
  | Role.assistant => "assistant"

def encodePart : ContentPart → Json
  | ContentPart.text s => Json.obj [("type", Json.str ("text")), ("text", Json.str s)]
  | ContentPart.imageUrl u =>
      Json.obj [("type", Json.str ("image_url")), ("image_url", Json.obj [("url", Json.str u)])]

def encodeContent : MessageContent → Json
  | MessageContent.plainText s => Json.str s
  | MessageContent.structured parts => Json.arr (parts.map encodePart)

def encodeMessage (m : Message) : Json :=
  Json.obj [("role", Json.str (roleString m.role)), ("content", encodeContent m.content)]

def encodeHistory (h : List Message) : Json :=
  Json.arr (h.map encodeMessage)

def decodePart : Json → Option ContentPart
  | Json.obj [("type", Json.str ("text")), ("text", Json.str s)] => some (ContentPart.text s)
  | Json.obj [("type", Json.str ("image_url")), ("image_url", Json.obj [("url", Json.str u)])] =>
      some (ContentPart.imageUrl u)
  | _ => none

def decodeParts : List Json → Option (List ContentPart)
  | [] => some []
  | j :: js =>
      match decodePart j, decodeParts js with
      | some p, some ps => some (p :: ps)
      | _, _ => none

def decodeRole (s : String) : Option Role :=
  if s = "user" then some Role.user
  else if s = "assistant" then some Role.assistant
  else none

def decodeContent : Json → Option MessageContent
  | Json.str s => some (MessageContent.plainText s)
  | Json.arr items =>
      match decodeParts items with
      | some parts => some (MessageContent.structured parts)
      | none => none
  | Json.obj _ => none

def decodeMessage : Json → Option Message
  | Json.obj [("role", Json.str r), ("content", c)] =>
      match decodeRole r, decodeContent c with
      | some ro, some co => some { role := ro, content := co }
      | _, _ => none
  | _ => none

def decodeMessages : List Json → Option (List Message)
  | [] => some []
  | j :: js =>
      match decodeMessage j, decodeMessages js with
      | some m, some ms => some (m :: ms)
      | _, _ => none

def decodeHistory : Json → Option (List Message)
  | Json.arr items => decodeMessages items
  | _ => none

/-- Classification loop of extract_image_references
(chat_with_media_v2.py lines 70-77): strip each captured reference and
route it to the urls or the file_paths list, keeping order. -/
def classifyRefs : List String → List String × List String
  | [] => ([], [])
  | r :: rs =>
      let r2 := pyStrip r
      let p := classifyRefs rs
      if isHttpUrl r2 then (r2 :: p.1, p.2) else (p.1, r2 :: p.2)

/-- An encoder oracle standing for os.path.exists plus
encode_image_to_base64: some b64 when the file exists and reads
successfully, none when the path is missing or the read fails (the code
then skips the image part and only prints a warning). -/
def noEncoder : String → Option String := fun _ => none

/-! ## chat.py -/

namespace ChatV0

structure AppState where
  messages : List Message
  file : Option Json

/-- chat.py get_ai_response (lines 48-72): append the user turn, then on
success append the assistant turn and persist; on failure return the
error text without touching history or the persisted file.  The gateway
outcome of client.chat.completions.create is the Except argument. -/
def get_ai_response (st : AppState) (input : String) (gw : Except String String) :
    AppState × String :=
  let st1 : AppState := { st with
    messages := st.messages ++ [{ role := Role.user, content := MessageContent.plainText input }] }
  match gw with
  | Except.ok reply =>
      let msgs := st1.messages ++ [{ role := Role.assistant, content := MessageContent.plainText reply }]
      ({ messages := msgs, file := some (encodeHistory msgs) }, reply)
  | Except.error e => (st1, "Error: " ++ e)

/-- chat.py line 59: max_tokens is the constant 150. -/
def maxTokens : Nat := 150

end ChatV0

/-! ## chat_with_media.py -/

namespace ChatV1

/-- chat_with_media.py extract_image_urls (lines 49-52): the raw captured
inner strings, unstripped and unclassified. -/
def extract_image_urls (text : String) : List String :=
  findRefs text

/-- chat_with_media.py create_message_content (lines 54-81). -/
def create_message_content (text : String) (image_urls : List String) : MessageContent :=
  if image_urls = [] then MessageContent.plainText text
  else
    let clean_text := pyStrip (subMarkers text)
    let textPart : List ContentPart :=
      if clean_text = "" then [] else [ContentPart.text clean_text]
    MessageContent.structured
      (textPart ++ image_urls.map (fun u => ContentPart.imageUrl (pyStrip u)))

/-- The content-construction pipeline of get_ai_response (lines 85-89). -/
def composePipeline (text : String) : MessageContent :=
  create_message_content text (extract_image_urls text)

/-- chat_with_media.py line 102: 4096 with image urls, else 512. -/
def requestMaxTokens (image_urls : List String) : Nat :=
  if image_urls = [] then 512 else 4096

end ChatV1

/-! ## chat_with_media_v2.py -/

namespace ChatV2

structure AppState where
  messages : List Message
  file : Option Json
  is_generating : Bool
  last_response : Option String

/-- chat_with_media_v2.py extract_image_references (lines 59-79). -/
def extract_image_references (text : String) : List String × List String :=
  classifyRefs (findRefs text)

/-- chat_with_media_v2.py create_message_content (lines 90-134).  The
encoder argument stands for the filesystem (existence check plus base64
read); a path whose encoding fails contributes no part. -/
def create_message_content (text : String) (image_urls image_paths : List String)
    (encoder : String → Option String) : MessageContent :=
  if image_urls = [] ∧ image_paths = [] then MessageContent.plainText text
  else
    let clean_text := pyStrip (subMarkers text)
    let textPart : List ContentPart :=
      if clean_text = "" then [] else [ContentPart.text clean_text]
    let urlParts := image_urls.map ContentPart.imageUrl
    let pathParts := image_paths.filterMap (fun p =>
      (encoder p).map (fun b64 => ContentPart.imageUrl ("data:image/jpeg;base64," ++ b64)))
    MessageContent.structured (textPart ++ urlParts ++ pathParts)

/-- The content-construction pipeline of get_ai_response (lines 138-142):
extract references, then build the message content. -/
def composePipeline (text : String) (enc : String → Option String) : MessageContent :=
  create_message_content text
    (extract_image_references text).1 (extract_image_references text).2 enc

/-- State after lines 138-148 of get_ai_response: the user turn is
appended to the in-memory history; nothing is persisted yet.  This is
the state at which the network call begins. -/
def userTurn (st : AppState) (input : String) (enc : String → Option String) : AppState :=
  { st with messages := st.messages ++
      [{ role := Role.user, content := composePipeline input enc }] }

/-- chat_with_media_v2.py save_history (lines 54-57). -/
def save_history (st : AppState) : AppState :=
  { st with file := some (encodeHistory st.messages) }

/-- chat_with_media_v2.py load_history (lines 41-52): a missing file or a
document that does not parse as a history yields the empty history. -/
def load_history (file : Option Json) : List Message :=
  match file with
  | none => []
  | some j => (decodeHistory j).getD []

/-- chat_with_media_v2.py get_ai_response (lines 136-180): append the
user turn; on success append the assistant turn, persist, and store the
reply in last_response; on failure only store the error text in
last_response.  Either way is_generating is cleared at the end. -/
def get_ai_response (st : AppState) (input : String) (enc : String → Option String)
    (gw : Except String String) : AppState :=
  let st1 := userTurn st input enc
  match gw with
  | Except.ok reply =>
      let st2 := { st1 with messages := st1.messages ++
          [{ role := Role.assistant, content := MessageContent.plainText reply }] }
      let st3 := save_history st2
      { st3 with last_response := some reply, is_generating := false }
  | Except.error e =>
      { st1 with last_response := some ("Error: " ++ e), is_generating := false }

/-- chat_with_media_v2.py lines 152-154: has_images is computed and then
ignored; max_tokens is the constant 4096. -/
def requestMaxTokens (image_urls image_paths : List String) : Nat :=
  let _has_images := decide (image_urls.length > 0) || decide (image_paths.length > 0)
  4096

/-- chat_with_media_v2.py request_async_response line 220: a new request
only raises the generating flag; last_response is not reset. -/
def startRequest (st : AppState) : AppState :=
  { st with is_generating := true }

/-- chat_with_media_v2.py lines 230-234: what the foreground presents
after the animation loop exits.  some r means the string r is printed as
the AI reply; none means the no-response message is printed (Python
truthiness: a missing or empty last_response both fall there). -/
def foregroundReport (st : AppState) : Option String :=
  match st.last_response with
  | some r => if r = "" then none else some r
  | none => none

end ChatV2

/-! ## Well-formed marker texts (used to state the amended claim about
marker delimiters in text parts) -/

def dblOpen : List Char := ['\x7b', '\x7b']

def dblClose : List Char := ['\x7d', '\x7d']

/-- Builds a text alternating free segments and double-brace markers:
assemble s0 [(i1, s1), (i2, s2)] is s0, marker around i1, s1, marker
around i2, s2. -/
def assemble : List Char → List (List Char × List Char) → List Char
  | s0, [] => s0
  | s0, (i, s) :: rest =>
      s0 ++ '\x7b' :: '\x7b' :: (i ++ '\x7d' :: '\x7d' :: assemble s rest)

/-! ## Concrete states used by counterexamples and witnesses -/

/-- A fresh session state with an in-flight request. -/
def failState : ChatV2.AppState :=
  { messages := [], file := none, is_generating := true, last_response := none }

/-- A fresh session state whose persisted file holds the empty history. -/
def st0 : ChatV2.AppState :=
  { messages := [], file := some (encodeHistory []), is_generating := false, last_response := none }

/-- A state left by a completed earlier request: idle, with the earlier
reply still stored in last_response. -/
def stPrev : ChatV2.AppState :=
  { messages := [], file := none, is_generating := false, last_response := some ("earlier") }

def c4WitnessHead : List Char := ['h', 'i', ' ']

def c4WitnessSegs : List (List Char × List Char) := [(['u'], [])]

/-! # Theorems -/

theorem splitAtClose_length : ∀ (l inner rest : List Char),
    splitAtClose l = some (inner, rest) →
    l.length = inner.length + rest.length + 2 := by
  intro l
  induction l with
  | nil => intro inner rest h; simp [splitAtClose] at h
  | cons c cs ih =>
    intro inner rest h
    cases cs with
    | nil => simp [splitAtClose] at h
    | cons c2 rest1 =>
      rw [splitAtClose] at h
      by_cases h1 : c = '\x7d' ∧ c2 = '\x7d'
      · rw [if_pos h1] at h
        obtain ⟨hi, hr⟩ := Option.some.inj h |> Prod.mk.inj
        subst hi; subst hr
        simp
      · rw [if_neg h1] at h
        by_cases h2 : c = '\n'
        · rw [if_pos h2] at h; simp at h
        · rw [if_neg h2] at h
          cases hsp : splitAtClose (c2 :: rest1) with
          | none => rw [hsp] at h; simp at h
          | some pr =>
            obtain ⟨i2, r2⟩ := pr
            rw [hsp] at h
            simp only [Option.some.injEq, Prod.mk.injEq] at h
            obtain ⟨hi, hr⟩ := h
            subst hi; subst hr
            have hlen := ih i2 r2 hsp
            simp [List.length_cons] at hlen ⊢
            omega

theorem scanAux_fuel : ∀ (n m : Nat) (l : List Char),
    l.length ≤ n → l.length ≤ m → scanAux n l = scanAux m l := by
  intro n
  induction n with
  | zero =>
    intro m l hn _
    have : l = [] := List.length_eq_zero.mp (Nat.le_zero.mp hn)
    subst this
    cases m <;> rfl
  | succ n ih =>
    intro m l hn hm
    cases l with
    | nil => cases m <;> rfl
    | cons c1 cs =>
      cases cs with
      | nil =>
        cases m with
        | zero => simp at hm
        | succ m => rfl
      | cons c2 rest =>
        cases m with
        | zero => simp at hm
        | succ m =>
          simp only [List.length_cons] at hn hm
          have hrest_n : (c2 :: rest).length ≤ n := by simp; omega
          have hrest_m : (c2 :: rest).length ≤ m := by simp; omega
          simp only [scanAux]
          by_cases hb : c1 = '\x7b' ∧ c2 = '\x7b'
          · rw [if_pos hb, if_pos hb]
            cases hsp : splitAtClose rest with
            | none =>
              dsimp only
              rw [ih m (c2 :: rest) hrest_n hrest_m]
            | some pr =>
              obtain ⟨inner, rest2⟩ := pr
              have hl2 := splitAtClose_length rest inner rest2 hsp
              have h2n : rest2.length ≤ n := by simp at hn; omega
              have h2m : rest2.length ≤ m := by simp at hm; omega
              dsimp only
              rw [ih m rest2 h2n h2m]
          · rw [if_neg hb, if_neg hb]
            rw [ih m (c2 :: rest) hrest_n hrest_m]

theorem scanMarkers_nil : scanMarkers [] = ([], []) := rfl

theorem scanMarkers_single (c : Char) : scanMarkers [c] = ([], [c]) := rfl

/-- Scanner step when the head character cannot open a marker. -/
theorem scanMarkers_skip (c1 c2 : Char) (rest : List Char) (h : c1 ≠ '\x7b') :
    scanMarkers (c1 :: c2 :: rest) =
      ((scanMarkers (c2 :: rest)).1, c1 :: (scanMarkers (c2 :: rest)).2) := by
  have hb : ¬ (c1 = '\x7b' ∧ c2 = '\x7b') := fun hc => h hc.1
  simp only [scanMarkers, List.length_cons, scanAux, if_neg hb]

/-- Scanner step at an opening marker with a reachable closing pair. -/
theorem scanMarkers_open (rest inner rest2 : List Char)
    (h : splitAtClose rest = some (inner, rest2)) :
    scanMarkers ('\x7b' :: '\x7b' :: rest) =
      (inner :: (scanMarkers rest2).1, (scanMarkers rest2).2) := by
  have hlen := splitAtClose_length rest inner rest2 h
  have hfuel : rest2.length ≤ rest.length + 1 := by omega
  simp only [scanMarkers, List.length_cons, scanAux, h, and_self, if_true]
  rw [scanAux_fuel (rest.length + 1) rest2.length rest2 hfuel (Nat.le_refl _)]

theorem decodePart_encodePart (p : ContentPart) : decodePart (encodePart p) = some p := by
  cases p <;> rfl

theorem decodeParts_map (ps : List ContentPart) :
    decodeParts (ps.map encodePart) = some ps := by
  induction ps with
  | nil => rfl
  | cons p ps ih => simp [decodeParts, decodePart_encodePart, ih]

theorem decodeContent_encodeContent (c : MessageContent) :
    decodeContent (encodeContent c) = some c := by
  cases c with
  | plainText s => rfl
  | structured parts => simp [encodeContent, decodeContent, decodeParts_map]

theorem decodeMessage_encodeMessage (m : Message) :
    decodeMessage (encodeMessage m) = some m := by
  obtain ⟨r, c⟩ := m
  cases r <;>
    simp [encodeMessage, decodeMessage, roleString, decodeRole, decodeContent_encodeContent]

theorem decodeHistory_encodeHistory (h : List Message) :
    decodeHistory (encodeHistory h) = some h := by
  simp only [encodeHistory, decodeHistory]
  induction h with
  | nil => rfl
  | cons m ms ih => simp [decodeMessages, decodeMessage_encodeMessage, ih]

/-- The classification loop is an order-preserving partition of the
stripped references by the scheme test. -/
theorem classifyRefs_eq (rs : List String) :
    classifyRefs rs = ((rs.map pyStrip).filter (fun r => isHttpUrl r),
                       (rs.map pyStrip).filter (fun r => !(isHttpUrl r))) := by
  induction rs with
  | nil => rfl
  | cons r rs ih =>
    simp only [classifyRefs, ih, List.map_cons, List.filter_cons]
    cases h : isHttpUrl (pyStrip r) <;> simp [h]

theorem classifyRefs_allUrl (rs : List String) (h : ∀ r ∈ rs, isHttpUrl (pyStrip r) = true) :
    classifyRefs rs = (rs.map pyStrip, []) := by
  induction rs with
  | nil => rfl
  | cons r rs ih =>
    have h1 := h r (List.mem_cons_self r rs)
    have ih2 := ih (fun x hx => h x (List.mem_cons_of_mem r hx))
    simp [classifyRefs, h1, ih2]

theorem classifyRefs_ne (rs : List String) (h : rs ≠ []) :
    ¬ ((classifyRefs rs).1 = [] ∧ (classifyRefs rs).2 = []) := by
  cases rs with
  | nil => exact absurd rfl h
  | cons r rs =>
    simp only [classifyRefs]
    cases hc : isHttpUrl (pyStrip r) <;> simp [hc]

/-- Scanning past a segment free of opening braces leaves it in the
clean text and finds no references in it. -/
theorem scanMarkers_seg (s t : List Char) (hs : ∀ c ∈ s, c ≠ '\x7b') :
    scanMarkers (s ++ t) = ((scanMarkers t).1, s ++ (scanMarkers t).2) := by
  induction s with
  | nil => simp
  | cons c s1 ih =>
    have hc : c ≠ '\x7b' := hs c (List.mem_cons_self c s1)
    have ih2 := ih (fun x hx => hs x (List.mem_cons_of_mem c hx))
    cases hst : s1 ++ t with
    | nil =>
      obtain ⟨hs1, ht⟩ := List.append_eq_nil.mp hst
      subst hs1; subst ht
      simp [scanMarkers_single, scanMarkers_nil]
    | cons c2 r2 =>
      have hrw : (c :: s1) ++ t = c :: c2 :: r2 := by rw [List.cons_append, hst]
      rw [hrw, scanMarkers_skip c c2 r2 hc, ← hst, ih2]
      simp

/-- A closing pair placed right after an inner string free of closing
braces and newlines is the first close the lazy search finds. -/
theorem splitAtClose_boundary (i t : List Char)
    (hi : ∀ c ∈ i, c ≠ '\x7d' ∧ c ≠ '\n') :
    splitAtClose (i ++ '\x7d' :: '\x7d' :: t) = some (i, t) := by
  induction i with
  | nil => simp [splitAtClose]
  | cons c i1 ih =>
    have hc := hi c (List.mem_cons_self c i1)
    have ih2 := ih (fun x hx => hi x (List.mem_cons_of_mem c hx))
    rw [List.cons_append]
    cases hil : i1 ++ '\x7d' :: '\x7d' :: t with
    | nil => exact absurd hil (by simp)
    | cons c2 r2 =>
      have hbody : splitAtClose (c2 :: r2) = some (i1, t) := hil ▸ ih2
      have hcond : ¬ (c = '\x7d' ∧ c2 = '\x7d') := fun hp => hc.1 hp.1
      rw [splitAtClose, if_neg hcond, if_neg hc.2, hbody]

/-- A well-formed marker text scans to exactly its inner strings, and the
clean text is the concatenation of its free segments. -/
theorem scanMarkers_assemble : ∀ (l : List (List Char × List Char)) (s0 : List Char),
    (∀ c ∈ s0, c ≠ '\x7b') →
    (∀ p ∈ l, (∀ c ∈ p.1, c ≠ '\x7d' ∧ c ≠ '\n') ∧ (∀ c ∈ p.2, c ≠ '\x7b')) →
    scanMarkers (assemble s0 l) = (l.map Prod.fst, s0 ++ (l.map Prod.snd).flatten) := by
  intro l
  induction l with
  | nil =>
    intro s0 hs _
    have h := scanMarkers_seg s0 [] hs
    simpa [assemble, scanMarkers_nil] using h
  | cons p l1 ih =>
    intro s0 hs hl
    obtain ⟨i, s⟩ := p
    have hp := hl (i, s) (List.mem_cons_self (i, s) l1)
    have hl1 := fun q hq => hl q (List.mem_cons_of_mem (i, s) hq)
    rw [assemble, scanMarkers_seg s0 _ hs,
        scanMarkers_open _ i _ (splitAtClose_boundary i (assemble s l1) hp.1),
        ih s hp.2 hl1]
    simp

theorem mem_stripList {c : Char} {l : List Char} (h : c ∈ stripList l) : c ∈ l := by
  simp only [stripList, List.mem_reverse] at h
  have h2 := (List.dropWhile_sublist pyIsSpace).subset h
  rw [List.mem_reverse] at h2
  exact (List.dropWhile_sublist pyIsSpace).subset h2

/-- A list avoiding the head character of the pattern contains no
occurrence of the pattern. -/
theorem listContainsSub_false (b : Char) (pat s : List Char) (hs : ∀ c ∈ s, c ≠ b) :
    listContainsSub (b :: pat) s = false := by
  induction s with
  | nil => rfl
  | cons c cs ih =>
    have hc : c ≠ b := hs c (List.mem_cons_self c cs)
    have ih2 := ih (fun x hx => hs x (List.mem_cons_of_mem c hx))
    simp [listContainsSub, listStartsWith, hc, ih2]

theorem filterMap_textOf_map_imageUrl (us : List String) :
    (us.map ContentPart.imageUrl).filterMap textOf = [] := by
  induction us with
  | nil => rfl
  | cons u us ih => simp [List.filterMap_cons, textOf, ih]

theorem filterMap_textOf_pathParts (ps : List String) (enc : String → Option String) :
    (ps.filterMap (fun p =>
        (enc p).map (fun b64 => ContentPart.imageUrl ("data:image/jpeg;base64," ++ b64)))).filterMap
      textOf = [] := by
  induction ps with
  | nil => rfl
  | cons p ps ih =>
    rw [List.filterMap_cons]
    cases he : enc p with
    | none => simpa [he] using ih
    | some b => simpa [he, List.filterMap_cons, textOf] using ih

/-! # Claims -/

/-- Claim C1, counterexample: with a failing completion call, after
get_ai_response finishes the history holds only the user turn — no
assistant turn follows it; the error text went to last_response only. -/
theorem c1_counterexample :
    (ChatV2.get_ai_response failState ("hi") noEncoder (Except.error ("boom"))).messages
        = [{ role := Role.user, content := MessageContent.plainText ("hi") }] ∧
    (ChatV2.get_ai_response failState ("hi") noEncoder (Except.error ("boom"))).last_response
        = some ("Error: boom") ∧
    ((ChatV2.get_ai_response failState ("hi") noEncoder (Except.error ("boom"))).messages.all
        (fun m => decide (m.role = Role.user))) = true := by
  refine ⟨rfl, rfl, rfl⟩

/-- Claim C1 (amended): when the completion call fails, the failure is
converted to a textual error message and presented as the reply
(stored in last_response by chat_with_media_v2.py, returned by
chat.py), but it is not appended to the history: on failure the
history ends with the unpaired user turn, and only on success does an
assistant turn immediately follow the appended user turn. -/
theorem c1_amended (st : ChatV2.AppState) (st0v : ChatV0.AppState)
    (input r e : String) (enc : String → Option String) :
    ((ChatV2.get_ai_response st input enc (Except.ok r)).messages
        = st.messages ++ [{ role := Role.user, content := ChatV2.composePipeline input enc },
                          { role := Role.assistant, content := MessageContent.plainText r }]) ∧
    ((ChatV2.get_ai_response st input enc (Except.error e)).messages
        = st.messages ++ [{ role := Role.user, content := ChatV2.composePipeline input enc }]) ∧
    ((ChatV2.get_ai_response st input enc (Except.error e)).last_response
        = some ("Error: " ++ e)) ∧
    ((ChatV0.get_ai_response st0v input (Except.error e)).1.messages
        = st0v.messages ++ [{ role := Role.user, content := MessageContent.plainText input }]) ∧
    ((ChatV0.get_ai_response st0v input (Except.error e)).2 = "Error: " ++ e) := by
  refine ⟨?_, rfl, rfl, rfl, rfl⟩
  simp [ChatV2.get_ai_response, ChatV2.userTurn, ChatV2.save_history]

/-- Claim C2, counterexample: at the point the network call begins (the
user turn already appended in memory), the persisted document still
holds the previous history — it does not reflect the appended user
message; and a failing call leaves it that way for good. -/
theorem c2_counterexample :
    ((ChatV2.userTurn st0 ("hi") noEncoder).messages
        = [{ role := Role.user, content := MessageContent.plainText ("hi") }]) ∧
    ((ChatV2.userTurn st0 ("hi") noEncoder).file = some (encodeHistory [])) ∧
    (ChatV2.load_history (ChatV2.userTurn st0 ("hi") noEncoder).file = []) ∧
    (([] : List Message)
        ≠ [{ role := Role.user, content := MessageContent.plainText ("hi") }]) ∧
    ((ChatV2.get_ai_response st0 ("hi") noEncoder (Except.error ("x"))).file
        = some (encodeHistory [])) := by
  refine ⟨rfl, rfl, rfl, by simp, rfl⟩

/-- Claim C2 (amended): the user turn is appended to the in-memory
history before the network call begins, but it is not persisted at that
point: the history is persisted only after a successful completion,
once the assistant turn has been appended as well; on failure nothing
is persisted at all. -/
theorem c2_amended (st : ChatV2.AppState) (input r e : String)
    (enc : String → Option String) :
    ((ChatV2.userTurn st input enc).file = st.file) ∧
    ((ChatV2.get_ai_response st input enc (Except.error e)).file = st.file) ∧
    ((ChatV2.get_ai_response st input enc (Except.ok r)).file
        = some (encodeHistory ((ChatV2.userTurn st input enc).messages
            ++ [{ role := Role.assistant, content := MessageContent.plainText r }]))) := by
  refine ⟨rfl, rfl, rfl⟩

/-- Claim C5: for a text whose extraction yields no references in either
list, the composed content is PlainText of the original input string,
unmodified. -/
theorem c5_no_markers (text : String) (enc : String → Option String)
    (h : ChatV2.extract_image_references text = ([], [])) :
    ChatV2.composePipeline text enc = MessageContent.plainText text := by
  simp [ChatV2.composePipeline, h, ChatV2.create_message_content]

theorem c5_no_markers_witness :
    ChatV2.extract_image_references ("hello") = ([], []) ∧
    ChatV2.composePipeline ("hello") noEncoder = MessageContent.plainText ("hello") :=
  ⟨rfl, c5_no_markers ("hello") noEncoder rfl⟩

/-- Claim C6: extraction strips each captured reference, classifies it by
the http or https scheme test, and each returned list preserves the
first-occurrence order of the source text; on the concrete text with
markers around b, a url, and c in that order it returns the url list
holding the url and the path list holding b then c. -/
theorem c6_extract_spec :
    (∀ text : String,
      ChatV2.extract_image_references text =
        (((findRefs text).map pyStrip).filter (fun r => isHttpUrl r),
         ((findRefs text).map pyStrip).filter (fun r => !(isHttpUrl r)))) ∧
    ChatV2.extract_image_references
        ("\x7b\x7bb\x7d\x7d \x7b\x7bhttp://a.example/one.png\x7d\x7d \x7b\x7bc\x7d\x7d")
      = (["http://a.example/one.png"], ["b", "c"]) := by
  exact ⟨fun text => classifyRefs_eq (findRefs text), rfl⟩

/-- Claim C7, code bug: chat_with_media_v2.py computes has_images and
then ignores it, passing max_tokens 4096 even when no image part is
present (the claimed 150 to 512 band holds in chat.py and
chat_with_media.py but not in v2). -/
theorem c7_v2_max_tokens_bug :
    ChatV2.requestMaxTokens [] [] = 4096 ∧
    ¬ (ChatV2.requestMaxTokens [] [] ≤ 512) ∧
    ChatV1.requestMaxTokens [] = 512 ∧
    ChatV1.requestMaxTokens [("u")] = 4096 ∧
    ChatV0.maxTokens = 150 := by
  refine ⟨rfl, by decide, rfl, by decide, rfl⟩

/-- Claim C8: persisting any history and loading it back yields the same
ordered sequence of messages, for any mix of plain-text and structured
contents. -/
theorem c8_save_load_roundtrip (st : ChatV2.AppState) :
    ChatV2.load_history (ChatV2.save_history st).file = st.messages := by
  simp [ChatV2.load_history, ChatV2.save_history, decodeHistory_encodeHistory]

/-- Claim C9, counterexample: starting a new request does not reset the
stored last response, so when the observation ceiling passes with the
background call still running, the foreground presents the reply of the
previous request instead of reporting the no-response condition. -/
theorem c9_counterexample :
    ChatV2.foregroundReport (ChatV2.startRequest stPrev) = some ("earlier") ∧
    (ChatV2.startRequest stPrev).last_response = some ("earlier") ∧
    ChatV2.foregroundReport (ChatV2.startRequest stPrev) ≠ none := by
  refine ⟨rfl, rfl, by decide⟩

/-- Claim C9 (amended): when the ceiling is reached before the
background call completes, the state the foreground reads is the
started state unchanged; it reports the no-response condition only if
no earlier response is stored, and otherwise presents the stored
earlier response, because starting a request raises only the
generating flag and never resets last_response. -/
theorem c9_amended (st : ChatV2.AppState) :
    ((ChatV2.startRequest st).last_response = st.last_response) ∧
    (st.last_response = none → ChatV2.foregroundReport (ChatV2.startRequest st) = none) ∧
    (∀ r : String, st.last_response = some r → r ≠ "" →
      ChatV2.foregroundReport (ChatV2.startRequest st) = some r) := by
  refine ⟨rfl, ?_, ?_⟩
  · intro h; simp [ChatV2.foregroundReport, ChatV2.startRequest, h]
  · intro r h hr; simp [ChatV2.foregroundReport, ChatV2.startRequest, h, hr]

theorem c9_amended_witness :
    stPrev.last_response = some ("earlier") ∧
    ChatV2.foregroundReport (ChatV2.startRequest stPrev) = some ("earlier") :=
  ⟨rfl, (c9_amended stPrev).2.2 ("earlier") rfl (by decide)⟩

/-- Claim C3, counterexample: a text that is one marker around a local
path, with an encoder on which that path fails, composes to a
Structured value with zero parts — not PlainText and not a sequence
with at least one part. -/
theorem c3_counterexample :
    ChatV2.extract_image_references ("\x7b\x7bp\x7d\x7d") = ([], [("p")]) ∧
    ChatV2.composePipeline ("\x7b\x7bp\x7d\x7d") noEncoder = MessageContent.structured [] := by
  refine ⟨rfl, rfl⟩

/-- Claim C3 (amended): with at least one extracted reference the
composed content is a Structured value, whose part list is empty
exactly when the cleaned text is empty, the url list is empty, and
every local path fails to encode; there is no fallback to PlainText in
that case. -/
theorem c3_amended (text : String) (urls paths : List String)
    (enc : String → Option String) (h : ¬ (urls = [] ∧ paths = [])) :
    ∃ parts, ChatV2.create_message_content text urls paths enc
        = MessageContent.structured parts ∧
      (parts = [] ↔ pyStrip (subMarkers text) = "" ∧ urls = [] ∧
        ∀ p ∈ paths, enc p = none) := by
  simp only [ChatV2.create_message_content, if_neg h]
  refine ⟨_, rfl, ?_⟩
  constructor
  · intro hnil
    have h2 := List.append_eq_nil.mp hnil
    obtain ⟨hA, hB⟩ := List.append_eq_nil.mp h2.1
    have hC := h2.2
    refine ⟨?_, ?_, ?_⟩
    · by_contra hcl
      rw [if_neg hcl] at hA
      simp at hA
    · exact List.map_eq_nil_iff.mp hB
    · intro p hp
      have hm := List.filterMap_eq_nil_iff.mp hC p hp
      exact Option.map_eq_none'.mp hm
  · rintro ⟨hcl, hu, hp⟩
    subst hu
    simpa [hcl, List.filterMap_eq_nil_iff, Option.map_eq_none'] using hp

theorem c3_amended_witness :
    (¬ (([("u")] : List String) = [] ∧ ([] : List String) = [])) ∧
    (∃ parts, ChatV2.create_message_content ("x") [("u")] [] noEncoder
        = MessageContent.structured parts ∧
      (parts = [] ↔ pyStrip (subMarkers ("x")) = "" ∧ ([("u")] : List String) = [] ∧
        ∀ p ∈ ([] : List String), noEncoder p = none)) :=
  ⟨by simp, c3_amended ("x") [("u")] [] noEncoder (by simp)⟩

/-- The two create_message_content variants agree when the reference
lists passed are the stripped references, all urls, and no paths. -/
theorem create_v1_v2 (text : String) (rs : List String) (enc : String → Option String) :
    ChatV1.create_message_content text rs
      = ChatV2.create_message_content text (rs.map pyStrip) [] enc := by
  cases rs with
  | nil => rfl
  | cons r rs2 =>
    simp only [ChatV1.create_message_content, ChatV2.create_message_content]
    have h1 : ¬ ((r :: rs2 : List String) = []) := by simp
    rw [if_neg h1]
    simp [List.map_map, Function.comp]

/-- Claim C10: on texts all of whose captured references are urls after
stripping, chat_with_media.py and chat_with_media_v2.py produce the
same message content (any encoder — no local paths are extracted). -/
theorem c10_url_only_equiv (text : String) (enc : String → Option String)
    (h : ∀ r ∈ findRefs text, isHttpUrl (pyStrip r) = true) :
    ChatV1.composePipeline text = ChatV2.composePipeline text enc := by
  have hcl := classifyRefs_allUrl (findRefs text) h
  simp only [ChatV1.composePipeline, ChatV2.composePipeline, ChatV1.extract_image_urls,
    ChatV2.extract_image_references, hcl]
  exact create_v1_v2 text (findRefs text) enc

theorem c10_url_only_equiv_witness :
    (∀ r ∈ findRefs ("\x7b\x7bhttp://a.example/one.png\x7d\x7d hi"),
        isHttpUrl (pyStrip r) = true) ∧
    ChatV1.composePipeline ("\x7b\x7bhttp://a.example/one.png\x7d\x7d hi")
      = ChatV2.composePipeline ("\x7b\x7bhttp://a.example/one.png\x7d\x7d hi") noEncoder :=
  ⟨by decide,
    c10_url_only_equiv ("\x7b\x7bhttp://a.example/one.png\x7d\x7d hi") noEncoder (by decide)⟩

theorem toList_mk (x : List Char) : (String.mk x).toList = x := rfl

/-- With at least one reference extracted, the only possible text part of
the composed content is the cleaned text. -/
theorem textPartsOf_create (text : String) (urls paths : List String)
    (enc : String → Option String) (h : ¬ (urls = [] ∧ paths = [])) :
    ∀ s ∈ textPartsOf (ChatV2.create_message_content text urls paths enc),
      s = pyStrip (subMarkers text) := by
  intro s hs
  unfold ChatV2.create_message_content at hs
  rw [if_neg h] at hs
  simp only [textPartsOf] at hs
  rw [List.filterMap_append, List.filterMap_append,
      filterMap_textOf_map_imageUrl, filterMap_textOf_pathParts] at hs
  simp only [List.append_nil] at hs
  by_cases hcl : pyStrip (subMarkers text) = ""
  · rw [if_pos hcl] at hs
    simp at hs
  · rw [if_neg hcl] at hs
    simp [textOf, List.filterMap_cons] at hs
    exact hs

/-- Claim C4, counterexample: the input consisting of one marker around x
followed by a stray opening pair contains a marker, yet the composed
content has a text part that is exactly the two opening braces. -/
theorem c4_counterexample :
    findRefs ("\x7b\x7bx\x7d\x7d\x7b\x7b") = [("x")] ∧
    textPartsOf (ChatV2.composePipeline ("\x7b\x7bx\x7d\x7d\x7b\x7b") noEncoder)
      = [("\x7b\x7b")] ∧
    listContainsSub dblOpen ("\x7b\x7b").toList = true := by
  refine ⟨rfl, rfl, rfl⟩

/-- Claim C4 (amended): for input texts built from brace-free segments
alternating with well-formed markers (inner strings free of closing
braces and newlines), with at least one marker, no text part of the
composed content contains either marker delimiter; for arbitrary
inputs, stray brace characters outside complete markers can survive
into the text part. -/
theorem c4_amended (s0 : List Char) (l : List (List Char × List Char))
    (enc : String → Option String) (hl : l ≠ [])
    (h0 : ∀ c ∈ s0, c ≠ '\x7b' ∧ c ≠ '\x7d')
    (hp : ∀ p ∈ l, (∀ c ∈ p.1, c ≠ '\x7d' ∧ c ≠ '\n') ∧ (∀ c ∈ p.2, c ≠ '\x7b' ∧ c ≠ '\x7d')) :
    ∀ s ∈ textPartsOf (ChatV2.composePipeline (String.mk (assemble s0 l)) enc),
      listContainsSub dblOpen s.toList = false ∧
      listContainsSub dblClose s.toList = false := by
  have hscan := scanMarkers_assemble l s0 (fun c hc => (h0 c hc).1)
      (fun p hpm => ⟨(hp p hpm).1, fun c hc => ((hp p hpm).2 c hc).1⟩)
  have hrefs : findRefs (String.mk (assemble s0 l)) = (l.map Prod.fst).map String.mk := by
    simp only [findRefs, toList_mk, hscan]
  have hrne : findRefs (String.mk (assemble s0 l)) ≠ [] := by
    rw [hrefs]
    simp [hl]
  have hne : ¬ ((ChatV2.extract_image_references (String.mk (assemble s0 l))).1 = [] ∧
      (ChatV2.extract_image_references (String.mk (assemble s0 l))).2 = []) :=
    classifyRefs_ne _ hrne
  have hclean : pyStrip (subMarkers (String.mk (assemble s0 l)))
      = String.mk (stripList (s0 ++ (l.map Prod.snd).flatten)) := by
    simp only [pyStrip, subMarkers, toList_mk, hscan]
  have hcleanchars : ∀ c ∈ stripList (s0 ++ (l.map Prod.snd).flatten),
      c ≠ '\x7b' ∧ c ≠ '\x7d' := by
    intro c hc
    have hc2 := mem_stripList hc
    rcases List.mem_append.mp hc2 with hmem | hmem
    · exact h0 c hmem
    · obtain ⟨seg, hseg, hcin⟩ := List.mem_flatten.mp hmem
      obtain ⟨q, hq, hqeq⟩ := List.mem_map.mp hseg
      exact (hp q hq).2 c (hqeq ▸ hcin)
  intro s hs
  simp only [ChatV2.composePipeline] at hs
  have hs2 := textPartsOf_create _ _ _ enc hne s hs
  have hslist : s.toList = stripList (s0 ++ (l.map Prod.snd).flatten) := by
    rw [hs2, hclean, toList_mk]
  rw [hslist]
  exact ⟨listContainsSub_false '\x7b' ['\x7b'] _ (fun c hc => (hcleanchars c hc).1),
         listContainsSub_false '\x7d' ['\x7d'] _ (fun c hc => (hcleanchars c hc).2)⟩

theorem c4_amended_witness :
    (c4WitnessSegs ≠ [] ∧
      (∀ c ∈ c4WitnessHead, c ≠ '\x7b' ∧ c ≠ '\x7d') ∧
      (∀ p ∈ c4WitnessSegs,
        (∀ c ∈ p.1, c ≠ '\x7d' ∧ c ≠ '\n') ∧ (∀ c ∈ p.2, c ≠ '\x7b' ∧ c ≠ '\x7d'))) ∧
    (∀ s ∈ textPartsOf (ChatV2.composePipeline
          (String.mk (assemble c4WitnessHead c4WitnessSegs)) noEncoder),
      listContainsSub dblOpen s.toList = false ∧
      listContainsSub dblClose s.toList = false) :=
  ⟨⟨by decide, by decide, by decide⟩,
    c4_amended c4WitnessHead c4WitnessSegs noEncoder (by decide) (by decide) (by decide)⟩

end SimpleChat